import Mathlib

/-!
Shallow embedding of scripts/train.py: the train/test epoch loops, the Optuna
objective and the study driver of main.  The external ML framework (the Net
model, the Adam optimizer, tensors/batches) is abstracted by a `Framework`
record; numeric values are rationals.
-/

namespace PlrExercise

/-- Command-line arguments parsed in main (argparse destinations of
scripts/train.py, lines 92-113).  Integers that the script compares with 0
through range() keep their signed type. -/
structure Args where
  batch_size : Nat
  test_batch_size : Nat
  epochs : Int
  gamma : ℚ
  no_cuda : Bool
  dry_run : Bool
  seed : Nat
  log_interval : Nat
  save_model : Bool

/-- An Optuna trial, reduced to the raw randomness behind the two
suggest_float calls issued by the objective (lines 149 and 151). -/
structure Trial where
  rawLr : ℚ
  rawGamma : ℚ

/-- Modelled from the spec: Optuna's trial.suggest_float (an external search
library call, not part of this repository) returns a sampled value that is
guaranteed to lie within the declared range; the underlying sample x is
mapped into the closed interval from lo to hi. -/
def suggestFloat (x lo hi : ℚ) : ℚ := max lo (min hi x)

/-- The learning rate recorded as the trial parameter lr: line 149,
suggest_float with bounds 1e-4 and 1e-1. -/
def trialLr (t : Trial) : ℚ := suggestFloat t.rawLr (1 / 10000) (1 / 10)

/-- The decay factor recorded as the trial parameter gamma: line 151,
suggest_float with bounds 0.5 and 0.9. -/
def trialGamma (t : Trial) : ℚ := suggestFloat t.rawGamma (1 / 2) (9 / 10)

/-- Abstract interface to the ML framework objects used by the script.
P is the parameter state of the Net model, O the Adam optimizer state,
B a training batch, I a single test input.  gradStep is the combined effect
of zero_grad / forward / nll_loss / backward / optimizer.step on one batch at
the optimizer's current learning rate (lines 30-34); batchLoss is the
training loss value computed at line 32 for the current parameters;
evalOutput is the model's output vector on one test input (line 70). -/
structure Framework (P O B I : Type) where
  initParams : P
  initOpt : O
  gradStep : ℚ → P → O → B → P × O
  batchLoss : P → B → ℚ
  evalOutput : P → I → List ℚ

/-- F.nll_loss for a single sample: the negated output entry at the target
index (line 71, before the sum reduction). -/
def sampleLoss (output : List ℚ) (target : Nat) : ℚ := -(output.getD target 0)

/-- output.argmax: index of the first maximal entry of the output vector
(line 72). -/
def argmaxIdx (l : List ℚ) : Nat :=
  (l.enum.foldl (fun best q => if best.2 < q.2 then q else best) (0, l.headD 0)).1

/-- F.nll_loss with sum reduction over one test batch (line 71). -/
def batchNllSum {P O B I : Type} (fw : Framework P O B I) (p : P)
    (batch : List (I × Nat)) : ℚ :=
  (batch.map (fun s => sampleLoss (fw.evalOutput p s.1) s.2)).sum

/-- pred.eq(target).sum() for one test batch: how many samples the current
parameters classify correctly (lines 72-73). -/
def batchCorrect {P O B I : Type} (fw : Framework P O B I) (p : P)
    (batch : List (I × Nat)) : Nat :=
  (batch.filter (fun s => argmaxIdx (fw.evalOutput p s.1) == s.2)).length

/-- len(test_loader.dataset): the loader partitions the dataset into batches,
so the dataset size is the summed batch length. -/
def datasetSize {I : Type} (testL : List (List (I × Nat))) : Nat :=
  (testL.map List.length).sum

/-- The accumulation loop of test (lines 66-73): starting from the running
test_loss and correct counters, fold over the remaining batches. -/
def testAccum {P O B I : Type} (fw : Framework P O B I) (p : P) :
    List (List (I × Nat)) → ℚ → Nat → ℚ × Nat
  | [], s, c => (s, c)
  | b :: rest, s, c =>
      testAccum fw p rest (s + batchNllSum fw p b) (c + batchCorrect fw p b)

/-- test (lines 50-83): accumulate summed batch losses and correct counts
from 0, divide the loss total by the dataset size, return the average loss. -/
def test {P O B I : Type} (fw : Framework P O B I) (p : P)
    (testL : List (List (I × Nat))) : ℚ :=
  (testAccum fw p testL 0 0).1 / (datasetSize testL : ℚ)

/-- The batch loop of train (lines 27-47) at batch index i: run one gradient
step per batch; when i % log_interval == 0 the loss is logged and, under
dry_run, the loop breaks.  Returns the final parameter and optimizer states,
the number of optimizer steps performed, and the logged losses. -/
def trainLoop {P O B I : Type} (fw : Framework P O B I) (li : Nat) (dr : Bool)
    (lr : ℚ) : List B → P → O → Nat → P × O × Nat × List ℚ
  | [], p, o, _ => (p, o, 0, [])
  | b :: rest, p, o, i =>
      let loss := fw.batchLoss p b
      let po := fw.gradStep lr p o b
      if i % li = 0 then
        if dr then (po.1, po.2, 1, [loss])
        else
          let r := trainLoop fw li dr lr rest po.1 po.2 (i + 1)
          (r.1, r.2.1, r.2.2.1 + 1, loss :: r.2.2.2)
      else
        let r := trainLoop fw li dr lr rest po.1 po.2 (i + 1)
        (r.1, r.2.1, r.2.2.1 + 1, r.2.2.2)

/-- train (lines 15-47): the batch loop started at batch index 0 with the
optimizer's current learning rate. -/
def train {P O B I : Type} (fw : Framework P O B I) (args : Args) (lr : ℚ)
    (trainL : List B) (p : P) (o : O) : P × O × Nat × List ℚ :=
  trainLoop fw args.log_interval args.dry_run lr trainL p o 0

/-- One epoch of the objective loop as a state transformer on
(learning rate, model parameters, optimizer state): train over the training
loader, then StepLR with step_size 1 multiplies the learning rate by gamma
(lines 155, 159, 161). -/
def epochStep {P O B I : Type} (fw : Framework P O B I) (li : Nat) (dr : Bool)
    (trainL : List B) (gamma : ℚ) (s : ℚ × P × O) : ℚ × P × O :=
  let r := trainLoop fw li dr s.1 trainL s.2.1 s.2.2 0
  (s.1 * gamma, r.1, r.2.1)

/-- The epoch loop of the objective (lines 158-163): for each remaining
epoch, train, evaluate (rebinding test_loss), step the scheduler; the final
value of test_loss is returned.  The Option accumulator is none while
test_loss is still unbound, modelling the unbound-name failure of the return
statement when the loop body never runs. -/
def epochLoopCore {P O B I : Type} (fw : Framework P O B I) (li : Nat)
    (dr : Bool) (trainL : List B) (testL : List (List (I × Nat))) (gamma : ℚ) :
    Nat → ℚ × P × O → Option ℚ → Option ℚ
  | 0, _, last => last
  | n + 1, s, _ =>
      let r := trainLoop fw li dr s.1 trainL s.2.1 s.2.2 0
      let tl := test fw r.1 testL
      epochLoopCore fw li dr trainL testL gamma n (s.1 * gamma, r.1, r.2.1) (some tl)

/-- objective (lines 147-163): sample lr and gamma from the trial, start from
a freshly constructed model and Adam optimizer, run the epoch loop
args.epochs times (range of a signed count), return the last test loss. -/
def objective {P O B I : Type} (fw : Framework P O B I) (args : Args)
    (trainL : List B) (testL : List (List (I × Nat))) (t : Trial) : Option ℚ :=
  epochLoopCore fw args.log_interval args.dry_run trainL testL (trialGamma t)
    args.epochs.toNat (trialLr t, fw.initParams, fw.initOpt) none

/-- The data loaders built once in main (lines 144-145) and closed over by
the objective. -/
structure Loaders (B I : Type) where
  trainL : List B
  testL : List (List (I × Nat))

/-- study.optimize (line 166): run the per-trial function once per trial in
sequence, threading the loader state through unchanged, and collect each
trial's result. -/
def runTrials {B I : Type} (f : Trial → Option ℚ) (s : Loaders B I) :
    List Trial → Loaders B I × List (Trial × Option ℚ)
  | [] => (s, [])
  | t :: ts =>
      let v := f t
      let r := runTrials f s ts
      (r.1, (t, v) :: r.2)

/-- Modelled from the spec: Optuna's study.best_trial under the minimize
direction (an external search library feature, not part of this repository)
is the earliest completed trial attaining the least objective value. -/
def bestOf : List (Trial × ℚ) → Option (Trial × ℚ)
  | [] => none
  | x :: xs =>
      match bestOf xs with
      | none => some x
      | some b => if b.2 < x.2 then some b else some x

/-- The completed trials: those whose objective produced a value. -/
def completedResults (rs : List (Trial × Option ℚ)) : List (Trial × ℚ) :=
  rs.filterMap (fun r => r.2.map (fun v => (r.1, v)))

/-- study.best_trial over the collected results, minimization direction
(line 165). -/
def studyBest (rs : List (Trial × Option ℚ)) : Option (Trial × ℚ) :=
  bestOf (completedResults rs)

/-- n_trials passed to study.optimize at line 166. -/
def nTrials : Nat := 5

/-- The hyperparameter search of main (lines 165-174): optimize the
objective over the first nTrials trials and report the best one. -/
def mainSearch {P O B I : Type} (fw : Framework P O B I) (args : Args)
    (s : Loaders B I) (ts : List Trial) : Option (Trial × ℚ) :=
  studyBest (runTrials (objective fw args s.trainL s.testL) s (ts.take nTrials)).2

/-- Observable outcome of main after the search: the reported best trial and
whether a model checkpoint was written. -/
structure MainResult where
  best : Option (Trial × ℚ)
  savedModel : Bool

/-- main after loader construction (lines 147-179): run the search and report
the best trial.  The torch.save call guarded by args.save_model is commented
out in the source (lines 176-177), so no invocation writes a model file. -/
def mainRun {P O B I : Type} (fw : Framework P O B I) (args : Args)
    (s : Loaders B I) (ts : List Trial) : MainResult :=
  { best := mainSearch fw args s ts, savedModel := false }

/-- Modelled from the spec: the convolutional classifier Net lives in
plr_exercise.models, outside the provided sources; the spec's
negative-log-likelihood loss and its non-negativity require the model's
outputs to be log-probabilities, that is, entries that are at most 0. -/
def logProbOutputs {P O B I : Type} (fw : Framework P O B I) (p : P)
    (testL : List (List (I × Nat))) : Bool :=
  testL.all (fun b => b.all (fun s => (fw.evalOutput p s.1).all (fun q => decide (q ≤ 0))))

/-- The value a completed trial records: the test loss of the final epoch,
that is, test evaluated at the parameters reached by iterating epochStep
(train over the training loader, then multiply the learning rate by gamma)
args.epochs times from the sampled learning rate, a fresh model and a fresh
optimizer. -/
def trialValue {P O B I : Type} (fw : Framework P O B I) (args : Args)
    (trainL : List B) (testL : List (List (I × Nat))) (t : Trial) : ℚ :=
  test fw
    (((epochStep fw args.log_interval args.dry_run trainL (trialGamma t))^[args.epochs.toNat])
      (trialLr t, fw.initParams, fw.initOpt)).2.1 testL

/-- A one-point instantiation of the framework interface, used to exhibit the
theorems below at concrete inputs. -/
def fwU : Framework Unit Unit Unit Unit where
  initParams := ()
  initOpt := ()
  gradStep := fun _ _ _ _ => ((), ())
  batchLoss := fun _ _ => 1
  evalOutput := fun _ _ => [-1, 0]

/-- The argparse defaults of the script. -/
def argsW : Args where
  batch_size := 64
  test_batch_size := 1000
  epochs := 2
  gamma := 7 / 10
  no_cuda := false
  dry_run := false
  seed := 1
  log_interval := 10
  save_model := false

/-- The argparse defaults with dry_run switched on. -/
def argsDry : Args where
  batch_size := 64
  test_batch_size := 1000
  epochs := 2
  gamma := 7 / 10
  no_cuda := false
  dry_run := true
  seed := 1
  log_interval := 10
  save_model := false

/-- A concrete trial. -/
def tW : Trial where
  rawLr := 1 / 100
  rawGamma := 7 / 10

/-- A concrete training loader with one batch. -/
def trainLW : List Unit := [()]

/-- A concrete test loader with one batch of one sample. -/
def testLW : List (List (Unit × Nat)) := [[((), 0)]]

/-- Concrete loaders. -/
def loadersW : Loaders Unit Unit := { trainL := trainLW, testL := testLW }

/-- Five concrete trials. -/
def tsW : List Trial := [tW, tW, tW, tW, tW]

/-- The running loss total of the test loop is the starting total plus the
summed batch losses of the remaining batches. -/
lemma testAccum_fst {P O B I : Type} (fw : Framework P O B I) (p : P)
    (l : List (List (I × Nat))) :
    ∀ (s : ℚ) (c : Nat), (testAccum fw p l s c).1 = s + (l.map (batchNllSum fw p)).sum := by
  induction l with
  | nil => intro s c; simp [testAccum]
  | cons b rest ih => intro s c; simp [testAccum, ih, add_assoc]

/-- The running correct count of the test loop is the starting count plus the
summed per-batch correct counts of the remaining batches. -/
lemma testAccum_snd {P O B I : Type} (fw : Framework P O B I) (p : P)
    (l : List (List (I × Nat))) :
    ∀ (s : ℚ) (c : Nat), (testAccum fw p l s c).2 = c + (l.map (batchCorrect fw p)).sum := by
  induction l with
  | nil => intro s c; simp [testAccum]
  | cons b rest ih => intro s c; simp [testAccum, ih, Nat.add_assoc]

/-- Reading a rational list whose entries are all nonpositive with default 0
yields a nonpositive value at every index. -/
lemma getD_nonpos_of_all (l : List ℚ) (h : ∀ q ∈ l, q ≤ 0) (n : Nat) :
    l.getD n 0 ≤ 0 := by
  induction l generalizing n with
  | nil => simp [List.getD]
  | cons a t ih =>
    cases n with
    | zero => simpa using h a (by simp)
    | succ m => simpa using ih (fun q hq => h q (by simp [hq])) m

/-- One unfolding of the epoch loop: run one epoch, rebind test_loss, carry
the decayed learning rate and the updated states into the remaining epochs. -/
lemma epochLoopCore_succ {P O B I : Type} (fw : Framework P O B I) (li : Nat) (dr : Bool)
    (trainL : List B) (testL : List (List (I × Nat))) (gamma : ℚ)
    (m : Nat) (s : ℚ × P × O) (last : Option ℚ) :
    epochLoopCore fw li dr trainL testL gamma (m + 1) s last =
      epochLoopCore fw li dr trainL testL gamma m
        (epochStep fw li dr trainL gamma s)
        (some (test fw (epochStep fw li dr trainL gamma s).2.1 testL)) := rfl

/-- The epoch loop, run at least once, returns the test loss computed from
the parameters reached by the corresponding iteration of epochStep. -/
lemma epochLoopCore_pos {P O B I : Type} (fw : Framework P O B I) (li : Nat) (dr : Bool)
    (trainL : List B) (testL : List (List (I × Nat))) (gamma : ℚ) :
    ∀ (n : Nat) (s : ℚ × P × O) (last : Option ℚ),
      epochLoopCore fw li dr trainL testL gamma (n + 1) s last =
        some (test fw (((epochStep fw li dr trainL gamma)^[n + 1]) s).2.1 testL) := by
  intro n
  induction n with
  | zero =>
    intro s last
    rw [epochLoopCore_succ]
    simp only [zero_add, Function.iterate_one]
    rfl
  | succ m ih =>
    intro s last
    rw [epochLoopCore_succ, ih, ← Function.iterate_succ_apply]

/-- With a positive epoch count, the objective completes and returns the
final-epoch test loss. -/
lemma objective_of_pos {P O B I : Type} (fw : Framework P O B I) (args : Args)
    (trainL : List B) (testL : List (List (I × Nat))) (t : Trial)
    (h : 0 < args.epochs) :
    objective fw args trainL testL t = some (trialValue fw args trainL testL t) := by
  obtain ⟨n, hn⟩ : ∃ n, args.epochs.toNat = n + 1 := ⟨args.epochs.toNat - 1, by omega⟩
  unfold objective trialValue
  rw [hn, epochLoopCore_pos]

/-- Running the trials leaves the loader state untouched. -/
lemma runTrials_fst {B I : Type} (f : Trial → Option ℚ) (s : Loaders B I)
    (ts : List Trial) : (runTrials f s ts).1 = s := by
  induction ts with
  | nil => rfl
  | cons t rest ih => simp [runTrials, ih]

/-- Running the trials records, in order, each trial with its objective
value. -/
lemma runTrials_snd {B I : Type} (f : Trial → Option ℚ) (s : Loaders B I)
    (ts : List Trial) : (runTrials f s ts).2 = ts.map (fun t => (t, f t)) := by
  induction ts with
  | nil => rfl
  | cons t rest ih => simp [runTrials, ih]

/-- The best of a nonempty result list exists. -/
lemma bestOf_cons_isSome (x : Trial × ℚ) (l : List (Trial × ℚ)) :
    ∃ b, bestOf (x :: l) = some b := by
  cases h : bestOf l with
  | none => exact ⟨x, by simp [bestOf, h]⟩
  | some b =>
    by_cases hb : b.2 < x.2
    · exact ⟨b, by simp [bestOf, h, hb]⟩
    · exact ⟨x, by simp [bestOf, h, hb]⟩

/-- bestOf never reports none on a nonempty list. -/
lemma bestOf_ne_none (a : Trial × ℚ) (t : List (Trial × ℚ)) :
    bestOf (a :: t) ≠ none := by
  cases h : bestOf t with
  | none => simp [bestOf, h]
  | some b => by_cases hb : b.2 < a.2 <;> simp [bestOf, h, hb]

/-- The reported best value is a lower bound of all completed values. -/
lemma bestOf_min (l : List (Trial × ℚ)) :
    ∀ (b : Trial × ℚ), bestOf l = some b → ∀ x ∈ l, b.2 ≤ x.2 := by
  induction l with
  | nil => intro b hb x hx; simp at hx
  | cons a t ih =>
    intro b hb x hx
    cases h : bestOf t with
    | none =>
      cases t with
      | nil =>
        have hba : b = a := by
          rw [show bestOf [a] = some a from by simp [bestOf]] at hb
          exact (Option.some.inj hb).symm
        subst hba
        rcases List.mem_cons.mp hx with hxa | hxt
        · rw [hxa]
        · simp at hxt
      | cons a' t' => exact absurd h (bestOf_ne_none a' t')
    | some c =>
      have hmin := ih c h
      rw [show bestOf (a :: t) = if c.2 < a.2 then some c else some a from by
        simp [bestOf, h]] at hb
      by_cases hca : c.2 < a.2
      · rw [if_pos hca] at hb
        have hbc : b = c := (Option.some.inj hb).symm
        subst hbc
        rcases List.mem_cons.mp hx with hxa | hxt
        · rw [hxa]; exact le_of_lt hca
        · exact hmin x hxt
      · rw [if_neg hca] at hb
        have hba : b = a := (Option.some.inj hb).symm
        subst hba
        rcases List.mem_cons.mp hx with hxa | hxt
        · rw [hxa]
        · exact le_trans (not_lt.mp hca) (hmin x hxt)

/-- If every trial completes with value g, the completed results are exactly
the trials paired with their values. -/
lemma completedResults_all_some (f : Trial → Option ℚ) (g : Trial → ℚ)
    (hfg : ∀ t, f t = some (g t)) (l : List Trial) :
    completedResults (l.map (fun t => (t, f t))) = l.map (fun t => (t, g t)) := by
  induction l with
  | nil => rfl
  | cons a t ih =>
    simp only [completedResults, List.map_cons, List.filterMap_cons] at ih ⊢
    rw [hfg a]
    simp [ih]

/-- When every trial completes, the search reduces to bestOf over the trial
values of the first nTrials trials. -/
lemma mainSearch_of_pos {P O B I : Type} (fw : Framework P O B I) (args : Args)
    (s : Loaders B I) (ts : List Trial) (he : 0 < args.epochs) :
    mainSearch fw args s ts =
      bestOf ((ts.take nTrials).map
        (fun t => (t, trialValue fw args s.trainL s.testL t))) := by
  unfold mainSearch studyBest
  rw [runTrials_snd, completedResults_all_some _ _
    (fun t => objective_of_pos fw args s.trainL s.testL t he)]

/-- The recorded learning rate is at least the declared lower bound. -/
lemma trialLr_lb (t : Trial) : 1 / 10000 ≤ trialLr t := le_max_left _ _

/-- The recorded learning rate is at most the declared upper bound. -/
lemma trialLr_ub (t : Trial) : trialLr t ≤ 1 / 10 :=
  max_le (by norm_num) (min_le_left _ _)

/-- The recorded gamma is at least the declared lower bound. -/
lemma trialGamma_lb (t : Trial) : 1 / 2 ≤ trialGamma t := le_max_left _ _

/-- The recorded gamma is at most the declared upper bound. -/
lemma trialGamma_ub (t : Trial) : trialGamma t ≤ 9 / 10 :=
  max_le (by norm_num) (min_le_left _ _)

/-- Claim C1: for every trial, the objective samples a learning rate and a
decay gamma, constructs a fresh model, a fresh Adam optimizer and a fresh
StepLR scheduler, runs the fixed epoch loop (train, then test, then a
scheduler step, args.epochs times), and returns the test loss of the final
epoch: its value is trialValue, the test loss at the parameters reached by
iterating epochStep args.epochs times from the sampled learning rate and the
fresh initial model and optimizer states. -/
theorem objective_final_epoch_loss {P O B I : Type} (fw : Framework P O B I)
    (args : Args) (trainL : List B) (testL : List (List (I × Nat))) (t : Trial)
    (h : 0 < args.epochs) :
    objective fw args trainL testL t = some (trialValue fw args trainL testL t) :=
  objective_of_pos fw args trainL testL t h

/-- Witness for C1 at the default arguments and a concrete trial. -/
theorem objective_final_epoch_loss_witness :
    (0 : Int) < argsW.epochs ∧
      objective fwU argsW trainLW testLW tW =
        some (trialValue fwU argsW trainLW testLW tW) :=
  ⟨by decide, objective_final_epoch_loss fwU argsW trainLW testLW tW (by decide)⟩

/-- Claim C2: the search driver runs a fixed number of trials (five) with a
minimization direction, and the best trial it reports has parameters within
the declared sampling ranges: learning rate between 1e-4 and 1e-1 and gamma
between 0.5 and 0.9.  Minimization is expressed by the reported value being
a lower bound of every completed trial value. -/
theorem search_best_trial_in_ranges {P O B I : Type} (fw : Framework P O B I)
    (args : Args) (s : Loaders B I) (ts : List Trial)
    (h5 : nTrials ≤ ts.length) (he : 0 < args.epochs) :
    (ts.take nTrials).length = 5 ∧
    ∃ t v, mainSearch fw args s ts = some (t, v) ∧
      1 / 10000 ≤ trialLr t ∧ trialLr t ≤ 1 / 10 ∧
      1 / 2 ≤ trialGamma t ∧ trialGamma t ≤ 9 / 10 ∧
      ∀ t' ∈ ts.take nTrials, ∀ v' : ℚ,
        objective fw args s.trainL s.testL t' = some v' → v ≤ v' := by
  have hlen : (ts.take nTrials).length = 5 := by
    rw [List.length_take, Nat.min_eq_left h5]
    rfl
  refine ⟨hlen, ?_⟩
  rw [mainSearch_of_pos fw args s ts he]
  obtain ⟨t0, rest, hts⟩ : ∃ t0 rest, ts.take nTrials = t0 :: rest := by
    cases hcase : ts.take nTrials with
    | nil => rw [hcase] at hlen; simp at hlen
    | cons a r => exact ⟨a, r, rfl⟩
  rw [hts, List.map_cons]
  obtain ⟨b, hb⟩ := bestOf_cons_isSome
    (t0, trialValue fw args s.trainL s.testL t0)
    (rest.map (fun t => (t, trialValue fw args s.trainL s.testL t)))
  refine ⟨b.1, b.2, ?_, trialLr_lb b.1, trialLr_ub b.1,
    trialGamma_lb b.1, trialGamma_ub b.1, ?_⟩
  · exact hb
  · intro t' ht' v' hv'
    rw [objective_of_pos fw args s.trainL s.testL t' he] at hv'
    have hv2 : v' = trialValue fw args s.trainL s.testL t' :=
      (Option.some.inj hv').symm
    have hmem : (t', trialValue fw args s.trainL s.testL t') ∈
        (t0, trialValue fw args s.trainL s.testL t0) ::
          rest.map (fun t => (t, trialValue fw args s.trainL s.testL t)) := by
      simpa using
        List.mem_map_of_mem (fun t => (t, trialValue fw args s.trainL s.testL t)) ht'
    rw [hv2]
    exact bestOf_min _ b hb _ hmem

/-- Witness for C2 at the default arguments, concrete loaders and five
concrete trials. -/
theorem search_best_trial_in_ranges_witness :
    nTrials ≤ tsW.length ∧ (0 : Int) < argsW.epochs ∧
      ((tsW.take nTrials).length = 5 ∧
        ∃ t v, mainSearch fwU argsW loadersW tsW = some (t, v) ∧
          1 / 10000 ≤ trialLr t ∧ trialLr t ≤ 1 / 10 ∧
          1 / 2 ≤ trialGamma t ∧ trialGamma t ≤ 9 / 10 ∧
          ∀ t' ∈ tsW.take nTrials, ∀ v' : ℚ,
            objective fwU argsW loadersW.trainL loadersW.testL t' = some v' →
              v ≤ v') :=
  ⟨by decide, by decide,
    search_best_trial_in_ranges fwU argsW loadersW tsW (by decide) (by decide)⟩

/-- Claim C3: the value returned by test equals the sum over all test batches
of the sum-reduction nll batch losses, divided by the size of the test
dataset.  Gradient tracking does not exist in this embedding: test is a pure
function of the parameters. -/
theorem test_avg_of_batch_sums {P O B I : Type} (fw : Framework P O B I) (p : P)
    (testL : List (List (I × Nat))) :
    test fw p testL =
      (testL.map (batchNllSum fw p)).sum / (datasetSize testL : ℚ) := by
  unfold test
  rw [testAccum_fst, zero_add]

/-- Claim C4: after processing any initial segment of the test batches the
accumulated correct count lies between 0 and the dataset size, since each
batch contributes at most its own number of samples. -/
theorem correct_count_le_dataset_size {P O B I : Type} (fw : Framework P O B I)
    (p : P) (testL : List (List (I × Nat))) (n : Nat) :
    0 ≤ (testAccum fw p (testL.take n) 0 0).2 ∧
      (testAccum fw p (testL.take n) 0 0).2 ≤ datasetSize testL := by
  refine ⟨Nat.zero_le _, ?_⟩
  rw [testAccum_snd, Nat.zero_add]
  have h1 : ((testL.take n).map (batchCorrect fw p)).sum ≤
      ((testL.take n).map List.length).sum :=
    List.sum_le_sum (fun b _ => List.length_filter_le _ _)
  have h2 : ((testL.take n).map List.length).sum ≤ (testL.map List.length).sum := by
    conv_rhs => rw [← List.take_append_drop n testL]
    rw [List.map_append, List.sum_append]
    exact Nat.le_add_right _ _
  exact le_trans h1 h2

/-- Claim C5: when the model outputs log-probabilities, the test-set average
loss is non-negative: per-sample nll losses are non-negative, and so is
their sum divided by the dataset size. -/
theorem test_loss_nonneg {P O B I : Type} (fw : Framework P O B I) (p : P)
    (testL : List (List (I × Nat)))
    (h : logProbOutputs fw p testL = true) :
    0 ≤ test fw p testL := by
  unfold test
  apply div_nonneg _ (Nat.cast_nonneg _)
  rw [testAccum_fst, zero_add]
  apply List.sum_nonneg
  intro x hx
  rw [List.mem_map] at hx
  obtain ⟨b, hb, rfl⟩ := hx
  unfold batchNllSum
  apply List.sum_nonneg
  intro y hy
  rw [List.mem_map] at hy
  obtain ⟨smp, hs, rfl⟩ := hy
  unfold logProbOutputs at h
  rw [List.all_eq_true] at h
  have hb2 := h b hb
  rw [List.all_eq_true] at hb2
  have hs2 := hb2 smp hs
  rw [List.all_eq_true] at hs2
  unfold sampleLoss
  rw [neg_nonneg]
  exact getD_nonpos_of_all _ (fun q hq => of_decide_eq_true (hs2 q hq)) _

/-- Witness for C5 at the concrete framework and test loader. -/
theorem test_loss_nonneg_witness :
    logProbOutputs fwU () testLW = true ∧ 0 ≤ test fwU () testLW :=
  ⟨by decide, test_loss_nonneg fwU () testLW (by decide)⟩

/-- Claim C6: with dry_run set, train stops after its first batch through the
break taken in the logging branch at batch index 0, having performed exactly
one optimizer step, and the loss of that single batch is the one value
logged. -/
theorem dry_run_one_batch {P O B I : Type} (fw : Framework P O B I) (args : Args)
    (lr : ℚ) (b : B) (rest : List B) (p : P) (o : O)
    (h1 : args.dry_run = true) (h2 : 0 < args.log_interval) :
    train fw args lr (b :: rest) p o =
      ((fw.gradStep lr p o b).1, (fw.gradStep lr p o b).2, 1, [fw.batchLoss p b]) := by
  simp [train, trainLoop, h1]

/-- Witness for C6 with dry_run switched on. -/
theorem dry_run_one_batch_witness :
    argsDry.dry_run = true ∧ 0 < argsDry.log_interval ∧
      train fwU argsDry 1 [()] () () =
        ((fwU.gradStep 1 () () ()).1, (fwU.gradStep 1 () () ()).2, 1,
          [fwU.batchLoss () ()]) :=
  ⟨rfl, by decide, dry_run_one_batch fwU argsDry 1 () [] () () rfl (by decide)⟩

/-- Claim C7: the loaders are built once and shared read-only across the
sequential trials: running the trials returns the loader state unchanged,
and every trial is evaluated against the very same loader values. -/
theorem loaders_shared_readonly {P O B I : Type} (fw : Framework P O B I)
    (args : Args) (s : Loaders B I) (ts : List Trial) :
    (runTrials (objective fw args s.trainL s.testL) s ts).1 = s ∧
    (runTrials (objective fw args s.trainL s.testL) s ts).2 =
      ts.map (fun t => (t, objective fw args s.trainL s.testL t)) :=
  ⟨runTrials_fst _ _ _, runTrials_snd _ _ _⟩

/-- Claim C8: the gamma command-line flag has no effect: two runs whose
arguments differ only in gamma produce identical results, because the
scheduler always uses the trial-sampled gamma and args.gamma is never read
after parsing. -/
theorem gamma_flag_no_effect {P O B I : Type} (fw : Framework P O B I)
    (args : Args) (g : ℚ) (s : Loaders B I) (ts : List Trial) :
    mainRun fw { args with gamma := g } s ts = mainRun fw args s ts := rfl

/-- Claim C9: the save-model flag has no effect: flipping it changes nothing,
and no run ever writes a model file, the only saving code being commented
out. -/
theorem save_model_flag_no_effect {P O B I : Type} (fw : Framework P O B I)
    (args : Args) (bflag : Bool) (s : Loaders B I) (ts : List Trial) :
    mainRun fw { args with save_model := bflag } s ts = mainRun fw args s ts ∧
      (mainRun fw args s ts).savedModel = false :=
  ⟨rfl, rfl⟩

/-- Claim C10: the objective returns a value exactly when args.epochs is at
least 1; with a non-positive epoch count the loop body never runs, test_loss
is never bound and the return fails, modelled by the none result. -/
theorem objective_requires_epochs_pos {P O B I : Type} (fw : Framework P O B I)
    (args : Args) (trainL : List B) (testL : List (List (I × Nat))) (t : Trial) :
    objective fw args trainL testL t = none ↔ args.epochs ≤ 0 := by
  constructor
  · intro hnone
    by_contra hc
    push_neg at hc
    rw [objective_of_pos fw args trainL testL t hc] at hnone
    exact Option.noConfusion hnone
  · intro hle
    unfold objective
    have h0 : args.epochs.toNat = 0 := by omega
    rw [h0]
    rfl

end PlrExercise
